import Mathlib

/-!
Verification of the Hue filebrowser and Oozie dashboard view modules.

This file gives a shallow embedding of the two Python source modules
(filebrowser/views.py and oozie/views/dashboard.py) and proves the frozen
claims about them.  Byte strings of the Python 2 code are modelled as
`List Char` (one `Char` per byte); paths and messages are `String`.
External collaborators (the HDFS client, the gzip and Avro libraries, the
Oozie REST client) are modelled as explicit data or function parameters,
while all control flow of the embedded functions follows the source.
-/

/-- Python `s.endswith(suffix)`: suffix test on the underlying bytes. -/
def pyEndsWith (s suffix : String) : Bool :=
  decide (suffix.data <:+ s.data)

/-- Python treats `None` and the empty string as an unset parameter. -/
def pyUnset : Option String → Bool
  | none => true
  | some s => s == ""

/-- Bytewise lexicographic strict comparison, as Python 2 compares `str`. -/
def strLtB : List Char → List Char → Bool
  | [], [] => false
  | [], _ :: _ => true
  | _ :: _, [] => false
  | a :: as, b :: bs => if a < b then true else if b < a then false else strLtB as bs

/-- A file opened for reading, together with the views of it that the
external gzip and Avro libraries would produce.  `bytes` is the raw byte
content; `gunzip` is the fully decompressed stream (`none` when the gzip
library fails); `avro off` is the sequence of records the Avro container
reader yields after a seek to `off`, each paired with the value
`fhandle.tell()` has once that record has been produced (`none` when the
Avro reader fails). -/
structure PyFile where
  bytes : List Char
  gunzip : Option (List Char)
  avro : Int → Option (List (List Char × Int))

/-- `detect_gzip` from filebrowser/views.py: the first two bytes are the
gzip magic number 0x1F 0x8B. -/
def detect_gzip (contents : List Char) : Bool :=
  contents.take 2 == ['\x1f', '\x8b']

/-- `detect_avro` from filebrowser/views.py: the first three bytes are
"O", "b", "j". -/
def detect_avro (contents : List Char) : Bool :=
  contents.take 3 == ['\x4f', '\x62', '\x6a']

/-- `_read_simple` from filebrowser/views.py: seek to the offset and read
`length` bytes. -/
def _read_simple (f : PyFile) (offset length : Int) : Except String (List Char) :=
  .ok ((f.bytes.drop offset.toNat).take length.toNat)

/-- `_read_gzip` from filebrowser/views.py: a nonzero offset is rejected;
otherwise the whole stream is decompressed and the first `length`
decompressed bytes are returned.  A decompression failure surfaces as the
user-facing error message. -/
def _read_gzip (f : PyFile) (offset length : Int) : Except String (List Char) :=
  if offset ≠ 0 then
    .error "Offsets are not supported with Gzip compression."
  else
    match f.gunzip with
    | none => .error "Failed to decompress file."
    | some d => .ok (d.take length.toNat)

/-- The record-accumulation loop of `_read_avro`.  For each record the
code computes `read_length = fhandle.tell() - read_start` (where
`read_start` is the position right after the seek, i.e. the offset) and
breaks when it exceeds `length` while at least one record is already
collected; otherwise the record is rendered with a trailing newline and
appended. -/
def readAvroLoop (offset length : Int) (acc : List (List Char)) :
    List (List Char × Int) → List (List Char)
  | [] => acc
  | (datum, tellAfter) :: rest =>
    if tellAfter - offset > length ∧ 0 < acc.length then acc
    else readAvroLoop offset length (acc ++ [datum ++ ['\n']]) rest

/-- `_read_avro` from filebrowser/views.py: open the Avro container reader
after seeking to the offset and accumulate rendered records; any reader
failure surfaces as the user-facing error message. -/
def _read_avro (f : PyFile) (offset length : Int) : Except String (List Char) :=
  match f.avro offset with
  | none => .error "Failed to read Avro file."
  | some records => .ok (List.flatten (readAvroLoop offset length [] records))

/-- The codec auto-detection step at the top of `read_contents`: when the
codec is unset, a path ending in ".gz" whose first two bytes are the gzip
magic selects gzip with offset forced to 0; else a path ending in ".avro"
whose first three bytes are the Avro magic selects avro; else "none". -/
def resolve_codec (codec_type : Option String) (path : String) (f : PyFile)
    (offset : Int) : String × Int :=
  if pyUnset codec_type then
    if pyEndsWith path ".gz" && detect_gzip (f.bytes.take 2) then ("gzip", 0)
    else if pyEndsWith path ".avro" && detect_avro (f.bytes.take 3) then ("avro", offset)
    else ("none", offset)
  else (codec_type.getD "", offset)

/-- `read_contents` from filebrowser/views.py: resolve the codec, then
dispatch to the per-codec reader and return the tuple of resolved codec,
offset, length and contents. -/
def read_contents (codec_type : Option String) (path : String) (f : PyFile)
    (offset length : Int) : Except String (String × Int × Int × List Char) :=
  let resolved := resolve_codec codec_type path f offset
  let ct := resolved.1
  let off := resolved.2
  match (if ct = "gzip" then _read_gzip f off length
         else if ct = "avro" then _read_avro f off length
         else _read_simple f off length) with
  | .error e => .error e
  | .ok contents => .ok (ct, off, length, contents)

/-- The "begin"/"end" handling of `display` (filebrowser/views.py lines
505-516): when an "end" parameter is supplied and nonzero, the 1-indexed
"begin" (defaulting to 1) is decremented to a zero-based offset, the
length is `end - begin` computed after that decrement, and the request is
rejected when the decremented begin is not before "end".  Otherwise the
explicit offset/length parameters are used with their defaults. -/
def displayRange (beginP endP : Option Int) (offsetP lengthP : Option Int) :
    Except String (Int × Int) :=
  let begin_ := beginP.getD 1 - 1
  match endP with
  | some e =>
    if e ≠ 0 then
      if begin_ ≥ e then
        .error "First byte to display must be before last byte to display."
      else
        .ok (begin_, e - begin_)
    else
      .ok (offsetP.getD 0, lengthP.getD 4096)
  | none =>
    .ok (offsetP.getD 0, lengthP.getD 4096)

/-- A raw stat record as produced by the filesystem collaborator, with the
attributes that listdir_paged sorts on and that the display massage reads. -/
structure Stat where
  path : String
  name : String
  size : Int
  mode : Int
  mtime : Int
  atime : Int
  user : String
  group : String
  type : String
deriving DecidableEq, Repr

/-- A sortable attribute value: the accepted sort keys are either integer
valued or string valued. -/
inductive SortVal where
  | int (i : Int)
  | str (s : String)
deriving DecidableEq, Repr

/-- The attribute lookup performed by `operator.attrgetter(sortby)`. -/
def keyVal (k : String) (s : Stat) : SortVal :=
  if k = "type" then .str s.type
  else if k = "name" then .str s.name
  else if k = "atime" then .int s.atime
  else if k = "mtime" then .int s.mtime
  else if k = "user" then .str s.user
  else if k = "group" then .str s.group
  else if k = "size" then .int s.size
  else .int 0

/-- Strict comparison of attribute values under Python 2 ordering:
integers compare numerically, strings compare bytewise, and any integer
sorts before any string. -/
def svLt : SortVal → SortVal → Bool
  | .int a, .int b => decide (a < b)
  | .str a, .str b => strLtB a.data b.data
  | .int _, .str _ => true
  | .str _, .int _ => false

/-- The comparison used when sorting by key `k`. -/
def statLt (k : String) (a b : Stat) : Bool :=
  svLt (keyVal k a) (keyVal k b)

/-- Insertion step of a stable insertion sort: the new element is placed
before the first element that is not strictly below it, so it lands after
every earlier element with an equal key. -/
def insertIS (lt : α → α → Bool) (a : α) : List α → List α
  | [] => [a]
  | b :: bs => if lt b a then b :: insertIS lt a bs else a :: b :: bs

/-- Stable insertion sort; models the stable `sorted` builtin. -/
def isort (lt : α → α → Bool) : List α → List α
  | [] => []
  | a :: l => insertIS lt a (isort lt l)

/-- The accepted sort keys of `listdir_paged`. -/
def acceptedSortKeys : List String :=
  ["type", "name", "atime", "mtime", "user", "group", "size"]

/-- The log line emitted for an unrecognized sort key. -/
def invalidSortLog (k : String) : String :=
  "Invalid sort attribute " ++ k ++ " for listdir."

/-- The sorting step of `listdir_paged` (filebrowser/views.py lines
394-403): no sort key leaves the listing alone; an unrecognized key is
logged and ignored; an accepted key stable-sorts by that attribute,
with the comparison reversed when the descending flag is set.  Returns
the resulting listing together with the log lines emitted. -/
def sortStatsStep (sortby : Option String) (descending : Bool) (l : List Stat) :
    List Stat × List String :=
  match sortby with
  | none => (l, [])
  | some k =>
    if k ∈ acceptedSortKeys then
      (isort (if descending then fun a b => statLt k b a else statLt k) l, [])
    else
      (l, [invalidSortLog k])

/-- The parent-entry step of `listdir_paged` (filebrowser/views.py lines
377-385): unless the normalized path is the filesystem root, a synthetic
entry is prepended, built from a real stat of the parent with its path
set to the parent path and its display name overridden to "..".  The
normalization and join functions of the filesystem collaborator are
passed in. -/
def listdirPagedStats (normpath : String → String) (join : String → String → String)
    (path : String) (listing : List Stat) (parentStat : Stat) : List Stat :=
  if normpath path = "/" then listing
  else { parentStat with path := join path "..", name := ".." } :: listing

/-- Content and metadata of one file in the filesystem model. -/
structure FileRec where
  content : String
  mode : Int
  user : String
  group : String
deriving DecidableEq, Repr

/-- The filesystem as a map from path to file record. -/
def FsMap : Type := String → Option FileRec

/-- Create or truncate a file. -/
def fsSet (m : FsMap) (p : String) (r : FileRec) : FsMap :=
  fun q => if q = p then some r else m q

/-- Delete a file. -/
def fsErase (m : FsMap) (p : String) : FsMap :=
  fun q => if q = p then none else m q

/-- Change the permission bits of a file. -/
def fsChmod (m : FsMap) (p : String) (mode : Int) : FsMap :=
  fun q => if q = p then (m p).map (fun r => { r with mode := mode }) else m q

/-- Change the owner and group of a file. -/
def fsChown (m : FsMap) (p : String) (user group : String) : FsMap :=
  fun q => if q = p then (m p).map (fun r => { r with user := user, group := group }) else m q

/-- Failure oracle for one run of the save pipeline, modelling which
collaborator calls raise, plus the attributes the filesystem assigns to a
freshly created file.  `writeFail` carries the message of the exception
raised by the staging write, when it fails. -/
structure SaveOracle where
  writeFail : Option String
  removeStagingFail : Bool
  chmodFail : Bool
  chownFail : Bool
  removeOrigFail : Option String
  renameFail : Option String
  newMode : Int
  newUser : String
  newGroup : String

/-- `_do_overwrite_save` from filebrowser/views.py: write the encoded data
to the staging path `path + "._hue_new"`; on a write failure best-effort
remove the staging path and re-raise the original error; on success copy
the permission bits and owner of the original onto the staging file
(failures logged and ignored), then remove the original and rename the
staging file into place.  `data` stands for the already encoded byte
payload `data.encode(encoding)`. -/
def _do_overwrite_save (o : SaveOracle) (fs : FsMap) (path data : String) :
    Except String Unit × FsMap :=
  let path_dest := path ++ "._hue_new"
  let fs1 := fsSet fs path_dest ⟨"", o.newMode, o.newUser, o.newGroup⟩
  match o.writeFail with
  | some e =>
    let fs2 := if o.removeStagingFail then fs1 else fsErase fs1 path_dest
    (.error e, fs2)
  | none =>
    let fs2 := fsSet fs1 path_dest ⟨data, o.newMode, o.newUser, o.newGroup⟩
    match fs2 path with
    | none => (.error "stats failed on original path", fs2)
    | some cur =>
      let fs3 := if o.chmodFail then fs2 else fsChmod fs2 path_dest (cur.mode % 4096)
      let fs4 := if o.chownFail then fs3 else fsChown fs3 path_dest cur.user cur.group
      match o.removeOrigFail with
      | some e => (.error e, fs4)
      | none =>
        let fs5 := fsErase fs4 path
        match o.renameFail with
        | some e => (.error e, fs5)
        | none =>
          match fs5 path_dest with
          | none => (.error "rename failed: staging path missing", fs5)
          | some staged => (.ok (), fsSet (fsErase fs5 path_dest) path staged)

/-- `_do_newfile_save` from filebrowser/views.py: plain write to a path
that does not exist yet; a write failure propagates as-is. -/
def _do_newfile_save (o : SaveOracle) (fs : FsMap) (path data : String) :
    Except String Unit × FsMap :=
  let fs1 := fsSet fs path ⟨"", o.newMode, o.newUser, o.newGroup⟩
  match o.writeFail with
  | some e => (.error e, fs1)
  | none => (.ok (), fsSet fs1 path ⟨data, o.newMode, o.newUser, o.newGroup⟩)

/-- The collaborator functions `_massage_stats` depends on: path
normalization, the file-type and permission-string helpers, and URL
construction. -/
structure MassageEnv where
  normpath : String → String
  filetype : Int → String
  rwxOf : Int → String
  makeUrl : String → String

/-- A display record as produced by `_massage_stats`. -/
structure DisplayRec where
  path : String
  name : String
  type : String
  rwxs : String
  url : String
deriving DecidableEq, Repr

/-- `_massage_stats` from filebrowser/views.py: normalize the path and
build the display-ready record. -/
def _massage_stats (env : MassageEnv) (s : Stat) : DisplayRec :=
  let normalized := env.normpath s.path
  { path := normalized
    name := s.name
    type := env.filetype s.mode
    rwxs := env.rwxOf s.mode
    url := env.makeUrl normalized }

/-- The dictionary rendered by `generic_op`, restricted to the keys the
claims observe. -/
structure RetDict where
  success : Bool
  result : Option DisplayRec
  result_error : Bool
deriving DecidableEq, Repr

/-- The observable outcome of one `generic_op` request. -/
inductive OpOutcome where
  | popup (msg : String)
  | redirect (target : String)
  | page (ret : RetDict)
deriving DecidableEq, Repr

/-- The request context of one `generic_op` call: whether it is a POST,
whether the submitted form validates, the bound operation result, the
optional "next" redirect target, the piggyback path from the validated
form, and the stats collaborator used for the piggyback re-fetch. -/
structure OpCtx where
  methodPost : Bool
  formValid : Bool
  opResult : Except String Unit
  next : Option String
  piggyback : Option String
  stats : String → Except String Stat

/-- `generic_op` from filebrowser/views.py: on a valid POST, run the bound
operation; an operation failure raises a popup; on success, redirect when
a next target was supplied, else report success and best-effort piggyback
a freshly massaged stat record, downgrading a piggyback failure to the
result_error flag.  Non-POST requests and invalid forms re-render the
form page. -/
def generic_op (env : MassageEnv) (ctx : OpCtx) : OpOutcome :=
  if ctx.methodPost then
    if ctx.formValid then
      match ctx.opResult with
      | .error _ => .popup "Cannot perform operation."
      | .ok _ =>
        match ctx.next with
        | some n => .redirect n
        | none =>
          match ctx.piggyback with
          | some piggyPath =>
            match ctx.stats piggyPath with
            | .ok s => .page ⟨true, some (_massage_stats env s), false⟩
            | .error _ => .page ⟨true, none, true⟩
          | none => .page ⟨true, none, false⟩
    else .page ⟨false, none, false⟩
  else .page ⟨false, none, false⟩

/-- An Oozie job as returned by the REST collaborator: its id and its
recorded owner. -/
structure OozieJob where
  id : String
  user : String
deriving DecidableEq, Repr

/-- The failure modes of the Oozie job access gate: a PopupException with
a user-facing message, or a Python NameError from reading a variable that
was never bound. -/
inductive GateError where
  | popup (msg : String)
  | nameError (variable_ : String)
deriving DecidableEq, Repr

/-- The request context of the access gate: the requesting user, whether
that user is a superuser, and the workflow and coordinator fetchers of
the Oozie REST client. -/
structure OozieCtx where
  username : String
  isSuperuser : Bool
  getJob : String → Except String OozieJob
  getCoordinator : String → Except String OozieJob

/-- The access-denied message of the gate. -/
def permissionDeniedMessage (username jobId : String) : String :=
  "Permission denied. " ++ username ++ " do not have the permissions to access job " ++ jobId

/-- `check_access_and_get_oozie_job` from oozie/views/dashboard.py: when a
job id is given, fetch it as a workflow when the id ends in "W" and as a
coordinator otherwise, wrapping a REST failure in a popup; then return the
job when the requester is a superuser or the recorded owner, else emit one
access_warn audit record and raise a popup with the same message.  When
the job id is None the fetch is skipped and the authorization line reads
the never-bound local variable oozie_job, so the call ends in a NameError.
Returns the outcome paired with the list of access_warn records emitted. -/
def check_access_and_get_oozie_job (ctx : OozieCtx) (jobId : Option String) :
    Except GateError OozieJob × List String :=
  match jobId with
  | some jid =>
    let fetch := if pyEndsWith jid "W" then ctx.getJob else ctx.getCoordinator
    match fetch jid with
    | .error _ => (.error (.popup ("Error accessing Oozie job " ++ jid)), [])
    | .ok oozieJob =>
      if ctx.isSuperuser || oozieJob.user == ctx.username then
        (.ok oozieJob, [])
      else
        let message := permissionDeniedMessage ctx.username oozieJob.id
        (.error (.popup message), [message])
  | none => (.error (.nameError "oozie_job"), [])

theorem insertIS_perm (lt : α → α → Bool) (a : α) (l : List α) :
    (insertIS lt a l).Perm (a :: l) := by
  induction l with
  | nil => simp [insertIS]
  | cons b bs ih =>
    by_cases h : lt b a = true
    · simp only [insertIS, h, if_true]
      exact (ih.cons b).trans (List.Perm.swap a b bs)
    · have h2 : lt b a = false := by cases hh : lt b a <;> simp_all
      simp [insertIS, h2]

theorem isort_perm (lt : α → α → Bool) (l : List α) : (isort lt l).Perm l := by
  induction l with
  | nil => simp [isort]
  | cons a l ih => exact (insertIS_perm lt a (isort lt l)).trans (ih.cons a)

theorem insertIS_pairwise (lt : α → α → Bool)
    (hasym : ∀ x y, lt x y = true → lt y x = false)
    (hneg : ∀ x y z, lt y x = false → lt z y = false → lt z x = false)
    (a : α) (l : List α)
    (h : l.Pairwise (fun x y => lt y x = false)) :
    (insertIS lt a l).Pairwise (fun x y => lt y x = false) := by
  induction l with
  | nil => simp [insertIS]
  | cons b bs ih =>
    rw [List.pairwise_cons] at h
    obtain ⟨hb, hbs⟩ := h
    by_cases hba : lt b a = true
    · simp only [insertIS, hba, if_true]
      rw [List.pairwise_cons]
      refine ⟨?_, ih hbs⟩
      intro c hc
      have hc2 : c ∈ a :: bs := (insertIS_perm lt a bs).mem_iff.mp hc
      rcases List.mem_cons.mp hc2 with rfl | hcbs
      · exact hasym b c hba
      · exact hb c hcbs
    · have hba2 : lt b a = false := by cases hh : lt b a <;> simp_all
      simp only [insertIS, hba2, Bool.false_eq_true, if_false]
      rw [List.pairwise_cons]
      refine ⟨?_, List.pairwise_cons.mpr ⟨hb, hbs⟩⟩
      intro c hc
      rcases List.mem_cons.mp hc with rfl | hcbs
      · exact hba2
      · exact hneg a b c hba2 (hb c hcbs)

theorem isort_pairwise (lt : α → α → Bool)
    (hasym : ∀ x y, lt x y = true → lt y x = false)
    (hneg : ∀ x y z, lt y x = false → lt z y = false → lt z x = false)
    (l : List α) :
    (isort lt l).Pairwise (fun x y => lt y x = false) := by
  induction l with
  | nil => simp [isort]
  | cons a l ih => exact insertIS_pairwise lt hasym hneg a (isort lt l) ih

theorem filter_insertIS_pos (lt : α → α → Bool) (p : α → Bool) (a : α) (l : List α)
    (hpa : p a = true) (hp : ∀ b, p b = true → lt b a = false) :
    (insertIS lt a l).filter p = a :: l.filter p := by
  induction l with
  | nil => simp [insertIS, hpa]
  | cons b bs ih =>
    by_cases hba : lt b a = true
    · have hpb : p b = false := by
        cases hh : p b
        · rfl
        · exact absurd hba (by simp [hp b hh])
      simp [insertIS, hba, List.filter_cons, hpb, ih]
    · have hba2 : lt b a = false := by cases hh : lt b a <;> simp_all
      simp [insertIS, hba2, List.filter_cons, hpa]

theorem filter_insertIS_neg (lt : α → α → Bool) (p : α → Bool) (a : α) (l : List α)
    (hpa : p a = false) :
    (insertIS lt a l).filter p = l.filter p := by
  induction l with
  | nil => simp [insertIS, hpa]
  | cons b bs ih =>
    by_cases hba : lt b a = true
    · simp [insertIS, hba, List.filter_cons, ih]
    · have hba2 : lt b a = false := by cases hh : lt b a <;> simp_all
      simp [insertIS, hba2, List.filter_cons, hpa]

theorem isort_filter (lt : α → α → Bool) (p : α → Bool)
    (hp : ∀ a b, p a = true → p b = true → lt a b = false) (l : List α) :
    (isort lt l).filter p = l.filter p := by
  induction l with
  | nil => rfl
  | cons a l ih =>
    by_cases hpa : p a = true
    · rw [isort, filter_insertIS_pos lt p a (isort lt l) hpa (fun b hb => hp b a hb hpa), ih,
        List.filter_cons, if_pos hpa]
    · have hpa2 : p a = false := by cases hh : p a <;> simp_all
      rw [isort, filter_insertIS_neg lt p a (isort lt l) hpa2, ih, List.filter_cons, hpa2]
      simp

theorem strLtB_irrefl (x : List Char) : strLtB x x = false := by
  induction x with
  | nil => rfl
  | cons a as ih => simp [strLtB, lt_irrefl, ih]

theorem strLtB_asymm (x y : List Char) (h : strLtB x y = true) : strLtB y x = false := by
  induction x generalizing y with
  | nil =>
    cases y with
    | nil => simp [strLtB] at h
    | cons b bs => rfl
  | cons a as ih =>
    cases y with
    | nil => simp [strLtB] at h
    | cons b bs =>
      simp only [strLtB] at h ⊢
      by_cases hab : a < b
      · simp [hab, lt_asymm hab]
      · by_cases hba : b < a
        · simp [hab, hba] at h
        · simp only [hab, hba, if_false] at h ⊢
          exact ih bs h

theorem strLtB_negtrans (x y z : List Char) (h1 : strLtB y x = false)
    (h2 : strLtB z y = false) : strLtB z x = false := by
  induction x generalizing y z with
  | nil => cases z <;> rfl
  | cons a as ih =>
    cases y with
    | nil => simp [strLtB] at h1
    | cons b bs =>
      cases z with
      | nil => simp [strLtB] at h2
      | cons c cs =>
        simp only [strLtB] at h1 h2 ⊢
        by_cases hba : b < a
        · simp [hba] at h1
        · by_cases hcb : c < b
          · simp [hcb] at h2
          · have hab : a ≤ b := not_lt.mp hba
            have hbc : b ≤ c := not_lt.mp hcb
            have hca : ¬ c < a := not_lt.mpr (hab.trans hbc)
            by_cases hac : a < c
            · simp [hca, hac]
            · have hceq : a = c := le_antisymm (hab.trans hbc) (not_lt.mp hac)
              have hnab : ¬ a < b := by
                intro hh
                exact absurd (lt_of_lt_of_le hh hbc) (by rw [← hceq]; exact lt_irrefl a)
              have hnbc : ¬ b < c := by
                intro hh
                exact absurd (lt_of_le_of_lt hab hh) (by rw [← hceq]; exact lt_irrefl a)
              simp only [hba, hnab, if_false] at h1
              simp only [hcb, hnbc, if_false] at h2
              simp only [hca, hac, if_false]
              exact ih bs cs h1 h2

theorem svLt_irrefl (v : SortVal) : svLt v v = false := by
  cases v with
  | int i => simp [svLt]
  | str s => simp [svLt, strLtB_irrefl]

theorem svLt_asymm (v w : SortVal) (h : svLt v w = true) : svLt w v = false := by
  cases v <;> cases w <;> simp only [svLt] at h ⊢
  all_goals first
    | rfl
    | (simp only [Bool.false_eq_true] at h)
    | (exact strLtB_asymm _ _ h)
    | (simp only [decide_eq_true_eq, decide_eq_false_iff_not] at h ⊢; omega)

theorem svLt_negtrans (u v w : SortVal) (h1 : svLt v u = false)
    (h2 : svLt w v = false) : svLt w u = false := by
  cases u <;> cases v <;> cases w <;> simp only [svLt] at h1 h2 ⊢
  all_goals first
    | rfl
    | (simp only [Bool.true_eq_false] at h1)
    | (simp only [Bool.true_eq_false] at h2)
    | (exact strLtB_negtrans _ _ _ h1 h2)
    | (simp only [decide_eq_true_eq, decide_eq_false_iff_not] at h1 h2 ⊢; omega)

theorem pyEndsWith_last (s suffix : String) (c : Char) (h : pyEndsWith s suffix = true)
    (hc : suffix.data.getLast? = some c) : s.data.getLast? = some c := by
  rw [pyEndsWith, decide_eq_true_eq] at h
  obtain ⟨t, ht⟩ := h
  rw [← ht, List.getLast?_append_of_ne_nil]
  · exact hc
  · intro hnil
    rw [hnil] at hc
    simp at hc

theorem gz_not_avro (p : String) (h : pyEndsWith p ".gz" = true) :
    pyEndsWith p ".avro" = false := by
  cases hh : pyEndsWith p ".avro"
  · rfl
  · have h1 := pyEndsWith_last p ".gz" 'z' h (by rfl)
    have h2 := pyEndsWith_last p ".avro" 'o' hh (by rfl)
    rw [h1] at h2
    exact absurd (Option.some.inj h2) (by decide)

theorem avro_not_gz (p : String) (h : pyEndsWith p ".avro" = true) :
    pyEndsWith p ".gz" = false := by
  cases hh : pyEndsWith p ".gz"
  · rfl
  · have h1 := pyEndsWith_last p ".avro" 'o' h (by rfl)
    have h2 := pyEndsWith_last p ".gz" 'z' hh (by rfl)
    rw [h1] at h2
    exact absurd (Option.some.inj h2) (by decide)

/-- The soft-boundary record prefix the spec describes for avro reads:
the first record unconditionally, then all following records whose
cumulative read length stays within the requested length. -/
def avroSoftTake (offset length : Int) : List (List Char × Int) → List (List Char × Int)
  | [] => []
  | r :: rest => r :: rest.takeWhile (fun q => decide (q.2 - offset ≤ length))

theorem readAvroLoop_acc (offset length : Int) (recs : List (List Char × Int))
    (acc : List (List Char)) (hacc : acc ≠ []) :
    readAvroLoop offset length acc recs =
      acc ++ (recs.takeWhile (fun q => decide (q.2 - offset ≤ length))).map
        (fun r => r.1 ++ ['\n']) := by
  induction recs generalizing acc with
  | nil => simp [readAvroLoop]
  | cons r rest ih =>
    obtain ⟨datum, tellAfter⟩ := r
    by_cases hcond : tellAfter - offset > length
    · have hlen : 0 < acc.length := List.length_pos.mpr hacc
      have hp : (decide (tellAfter - offset ≤ length)) = false := by
        simp only [decide_eq_false_iff_not]
        omega
      rw [readAvroLoop, if_pos ⟨hcond, hlen⟩, List.takeWhile_cons, hp]
      simp
    · have hp : (decide (tellAfter - offset ≤ length)) = true := by
        simp only [decide_eq_true_eq]
        omega
      have hno : ¬ (tellAfter - offset > length ∧ 0 < acc.length) := fun hh => hcond hh.1
      rw [readAvroLoop, if_neg hno, ih (acc ++ [datum ++ ['\n']]) (by simp),
        List.takeWhile_cons, hp]
      simp

theorem readAvroLoop_spec (offset length : Int) (recs : List (List Char × Int)) :
    readAvroLoop offset length [] recs =
      (avroSoftTake offset length recs).map (fun r => r.1 ++ ['\n']) := by
  cases recs with
  | nil => rfl
  | cons r rest =>
    obtain ⟨datum, tellAfter⟩ := r
    rw [readAvroLoop, if_neg (by simp), readAvroLoop_acc offset length rest
      ([] ++ [datum ++ ['\n']]) (by simp)]
    simp [avroSoftTake]

/-- C3: with the codec unset, auto-detection resolves gzip with the offset
forced to 0 when the path ends in ".gz" and the first two bytes are the
gzip magic; else avro when the path ends in ".avro" and the first three
bytes are the Avro magic; else "none" — in particular a ".gz" path whose
first two bytes are not the gzip magic resolves to "none". -/
theorem codec_autodetect_spec (path : String) (f : PyFile) (offset : Int) :
    (pyEndsWith path ".gz" = true → detect_gzip (f.bytes.take 2) = true →
      resolve_codec none path f offset = ("gzip", 0)) ∧
    (pyEndsWith path ".avro" = true → detect_avro (f.bytes.take 3) = true →
      resolve_codec none path f offset = ("avro", offset)) ∧
    ((pyEndsWith path ".gz" && detect_gzip (f.bytes.take 2)) = false →
     (pyEndsWith path ".avro" && detect_avro (f.bytes.take 3)) = false →
      resolve_codec none path f offset = ("none", offset)) ∧
    (pyEndsWith path ".gz" = true → detect_gzip (f.bytes.take 2) = false →
      resolve_codec none path f offset = ("none", offset)) := by
  refine ⟨fun h1 h2 => ?_, fun h1 h2 => ?_, fun h1 h2 => ?_, fun h1 h2 => ?_⟩
  · simp [resolve_codec, pyUnset, h1, h2]
  · have hgz : pyEndsWith path ".gz" = false := avro_not_gz path h1
    simp [resolve_codec, pyUnset, hgz, h1, h2]
  · simp [resolve_codec, pyUnset, h1, h2]
  · have havro : pyEndsWith path ".avro" = false := gz_not_avro path h1
    simp [resolve_codec, pyUnset, h1, h2, havro]

/-- A gzip file fixture: name ends in ".gz" and the content carries the
gzip magic bytes. -/
def gzFile : PyFile :=
  ⟨['\x1f', '\x8b', 'q'], some ['h', 'i'], fun _ => none⟩

/-- An avro file fixture: content starts with the Avro magic bytes. -/
def avroFile : PyFile :=
  ⟨['\x4f', '\x62', '\x6a', 'q'], none, fun _ => none⟩

/-- A fixture whose content has no magic bytes at all. -/
def plainFile : PyFile :=
  ⟨['h', 'e', 'l', 'l', 'o'], none, fun _ => none⟩

theorem codec_autodetect_spec_witness :
    (pyEndsWith "a.gz" ".gz" = true ∧ detect_gzip (gzFile.bytes.take 2) = true ∧
      resolve_codec none "a.gz" gzFile 7 = ("gzip", 0)) ∧
    (pyEndsWith "b.avro" ".avro" = true ∧ detect_avro (avroFile.bytes.take 3) = true ∧
      resolve_codec none "b.avro" avroFile 7 = ("avro", 7)) ∧
    (pyEndsWith "a.gz" ".gz" = true ∧ detect_gzip (plainFile.bytes.take 2) = false ∧
      resolve_codec none "a.gz" plainFile 7 = ("none", 7)) :=
  ⟨⟨by decide, by decide,
      (codec_autodetect_spec "a.gz" gzFile 7).1 (by decide) (by decide)⟩,
   ⟨by decide, by decide,
      (codec_autodetect_spec "b.avro" avroFile 7).2.1 (by decide) (by decide)⟩,
   ⟨by decide, by decide,
      (codec_autodetect_spec "a.gz" plainFile 7).2.2.2 (by decide) (by decide)⟩⟩

/-- C4: a gzip-codec read with a nonzero offset is rejected with the
request error; with offset 0 the whole stream is decompressed and only
the first `length` decompressed bytes are returned. -/
theorem read_gzip_spec (f : PyFile) (offset length : Int) (d : List Char) :
    (offset ≠ 0 →
      _read_gzip f offset length = .error "Offsets are not supported with Gzip compression.") ∧
    (offset = 0 → f.gunzip = some d →
      _read_gzip f offset length = .ok (d.take length.toNat)) := by
  constructor
  · intro h
    simp [_read_gzip, h]
  · intro h hg
    simp [_read_gzip, h, hg]

theorem read_gzip_spec_witness :
    ((3 : Int) ≠ 0 ∧
      _read_gzip gzFile 3 2 = .error "Offsets are not supported with Gzip compression.") ∧
    ((0 : Int) = 0 ∧ gzFile.gunzip = some ['h', 'i'] ∧
      _read_gzip gzFile 0 1 = .ok ['h']) :=
  ⟨⟨by decide, (read_gzip_spec gzFile 3 2 []).1 (by decide)⟩,
   ⟨rfl, rfl, (read_gzip_spec gzFile 0 1 ['h', 'i']).2 rfl rfl⟩⟩

/-- C8: an avro-codec read renders successive records in sequence, each
newline-terminated, and stops exactly when the cumulative bytes read
would exceed `length` while at least one record is already collected:
the crossing record is excluded only when the collected list is
non-empty, so the first record is returned even when it alone exceeds
the length. -/
theorem read_avro_soft_boundary (f : PyFile) (offset length : Int)
    (records : List (List Char × Int)) (h : f.avro offset = some records) :
    _read_avro f offset length =
      .ok (List.flatten ((avroSoftTake offset length records).map
        (fun r => r.1 ++ ['\n']))) := by
  simp only [_read_avro, h]
  rw [readAvroLoop_spec]

/-- An avro fixture with three records: the first record alone overruns a
length budget of 2, and the second overruns a budget of 6. -/
def avroRecFile : PyFile :=
  ⟨[], none, fun o => if o = 2 then some [(['a'], 5), (['b', 'c'], 9), (['d'], 12)] else none⟩

theorem read_avro_soft_boundary_witness :
    (avroRecFile.avro 2 = some [(['a'], 5), (['b', 'c'], 9), (['d'], 12)] ∧
      _read_avro avroRecFile 2 6 = .ok ['a', '\n']) ∧
    (_read_avro avroRecFile 2 2 = .ok ['a', '\n']) :=
  ⟨⟨rfl, (read_avro_soft_boundary avroRecFile 2 6 [(['a'], 5), (['b', 'c'], 9), (['d'], 12)] rfl)⟩,
   (read_avro_soft_boundary avroRecFile 2 2 [(['a'], 5), (['b', 'c'], 9), (['d'], 12)] rfl)⟩

/-- C5 counterexample: the claimed mapping says begin=1, end=11 gives
length 10 and that begin = end is rejected; the code maps begin=1,
end=11 to offset 0 and length 11, and accepts begin=1, end=1 with
length 1. -/
theorem display_begin_end_cex :
    displayRange (some 1) (some 11) none none = .ok (0, 11) ∧
    displayRange (some 1) (some 11) none none ≠ .ok (0, 10) ∧
    displayRange (some 1) (some 1) none none = .ok (0, 1) := by
  refine ⟨rfl, ?_, rfl⟩
  intro h
  rw [show displayRange (some 1) (some 11) none none = .ok (0, 11) from rfl] at h
  exact absurd (Except.ok.inj h) (by decide)

/-- C5 (amended): a begin/end pair with a nonzero end maps to
offset = begin - 1 and length = end - begin + 1 (begin=1, end=11 gives
offset 0 and length 11, the first 11 bytes), and the request is rejected
exactly when begin > end, i.e. when the decremented begin is not before
end. -/
theorem display_begin_end_amended (b e : Int) (offsetP lengthP : Option Int) (he : e ≠ 0) :
    (b > e → displayRange (some b) (some e) offsetP lengthP =
      .error "First byte to display must be before last byte to display.") ∧
    (b ≤ e → displayRange (some b) (some e) offsetP lengthP = .ok (b - 1, e - b + 1)) := by
  constructor
  · intro h
    have hge : b - 1 ≥ e := by omega
    simp [displayRange, he, hge]
  · intro h
    have hge : ¬ (b - 1 ≥ e) := by omega
    have harith : e - (b - 1) = e - b + 1 := by omega
    simp [displayRange, he, hge, harith]

theorem display_begin_end_amended_witness :
    ((11 : Int) ≠ 0 ∧ (1 : Int) ≤ 11 ∧
      displayRange (some 1) (some 11) none none = .ok (0, 11)) ∧
    ((5 : Int) ≠ 0 ∧ (7 : Int) > 5 ∧
      displayRange (some 7) (some 5) none none =
        .error "First byte to display must be before last byte to display.") :=
  ⟨⟨by decide, by decide, (display_begin_end_amended 1 11 none none (by decide)).2 (by decide)⟩,
   ⟨by decide, by decide, (display_begin_end_amended 7 5 none none (by decide)).1 (by decide)⟩⟩

/-- C6: a paginated directory listing excludes the synthetic parent entry
when the normalized target is the filesystem root, and otherwise contains
exactly one such entry, prepended, with display name ".." and path set to
the parent directory. -/
theorem listdir_parent_entry (normpath : String → String) (join : String → String → String)
    (path : String) (listing : List Stat) (parentStat : Stat)
    (h : ∀ s ∈ listing, s.name ≠ "..") :
    (normpath path = "/" →
      listdirPagedStats normpath join path listing parentStat = listing ∧
      (listdirPagedStats normpath join path listing parentStat).countP
        (fun s => s.name == "..") = 0) ∧
    (normpath path ≠ "/" →
      listdirPagedStats normpath join path listing parentStat =
        { parentStat with path := join path "..", name := ".." } :: listing ∧
      (listdirPagedStats normpath join path listing parentStat).countP
        (fun s => s.name == "..") = 1) := by
  have hcount : listing.countP (fun s => s.name == "..") = 0 :=
    List.countP_eq_zero.mpr (fun a ha => by simp [h a ha])
  constructor
  · intro hr
    simp [listdirPagedStats, hr, hcount]
  · intro hr
    refine ⟨by simp [listdirPagedStats, hr], ?_⟩
    simp [listdirPagedStats, hr, List.countP_cons, hcount]

/-- A concrete stat fixture for the directory-listing witnesses. -/
def demoStat : Stat :=
  ⟨"/user/alice/a.txt", "a.txt", 10, 420, 5, 6, "alice", "alice", "file"⟩

/-- A concrete parent-directory stat fixture. -/
def demoParentStat : Stat :=
  ⟨"/user", "user", 0, 493, 1, 2, "hdfs", "hdfs", "dir"⟩

theorem listdir_parent_entry_witness :
    ((∀ s ∈ [demoStat], s.name ≠ "..") ∧ (fun s => s) "/" = "/" ∧
      listdirPagedStats (fun s => s) (fun a b => a ++ "/" ++ b) "/" [demoStat]
        demoParentStat = [demoStat]) ∧
    ((fun s => s) "/user/alice" ≠ "/" ∧
      listdirPagedStats (fun s => s) (fun a b => a ++ "/" ++ b) "/user/alice" [demoStat]
        demoParentStat =
        { demoParentStat with path := "/user/alice" ++ "/" ++ "..", name := ".." } :: [demoStat] ∧
      (listdirPagedStats (fun s => s) (fun a b => a ++ "/" ++ b) "/user/alice" [demoStat]
        demoParentStat).countP (fun s => s.name == "..") = 1) :=
  ⟨⟨by decide, rfl,
      ((listdir_parent_entry (fun s => s) (fun a b => a ++ "/" ++ b) "/" [demoStat]
        demoParentStat (by decide)).1 rfl).1⟩,
   ⟨by decide,
      (listdir_parent_entry (fun s => s) (fun a b => a ++ "/" ++ b) "/user/alice" [demoStat]
        demoParentStat (by decide)).2 (by decide)⟩⟩

theorem statLt_asymm (k : String) (x y : Stat) (h : statLt k x y = true) :
    statLt k y x = false :=
  svLt_asymm (keyVal k x) (keyVal k y) h

theorem statLt_negtrans (k : String) (x y z : Stat) (h1 : statLt k y x = false)
    (h2 : statLt k z y = false) : statLt k z x = false :=
  svLt_negtrans (keyVal k x) (keyVal k y) (keyVal k z) h1 h2

/-- C7: sorting with an accepted key logs nothing, permutes the listing,
orders it in the requested direction (ascending by default, descending
when the flag is set), and is stable (the subsequence of entries sharing
any key value is unchanged); an unrecognized key is logged and the order
is unchanged from the input order. -/
theorem listdir_sort_spec (k : String) (descending : Bool) (l : List Stat) (v : SortVal) :
    (k ∈ acceptedSortKeys →
      (sortStatsStep (some k) descending l).2 = [] ∧
      ((sortStatsStep (some k) descending l).1).Perm l ∧
      ((sortStatsStep (some k) descending l).1).Pairwise
        (fun x y => (if descending then statLt k x y else statLt k y x) = false) ∧
      ((sortStatsStep (some k) descending l).1).filter (fun s => keyVal k s == v) =
        l.filter (fun s => keyVal k s == v)) ∧
    (k ∉ acceptedSortKeys →
      sortStatsStep (some k) descending l = (l, [invalidSortLog k])) := by
  constructor
  · intro hk
    have hp : ∀ a b : Stat, (keyVal k a == v) = true → (keyVal k b == v) = true →
        statLt k a b = false := by
      intro a b ha hb
      have ha2 : keyVal k a = v := by simpa using ha
      have hb2 : keyVal k b = v := by simpa using hb
      rw [statLt, ha2, hb2]
      exact svLt_irrefl v
    cases descending
    · simp only [sortStatsStep, if_pos hk, Bool.false_eq_true, if_false]
      refine ⟨trivial, isort_perm _ l, ?_, ?_⟩
      · exact isort_pairwise (statLt k) (statLt_asymm k) (statLt_negtrans k) l
      · exact isort_filter (statLt k) (fun s => keyVal k s == v) hp l
    · simp only [sortStatsStep, if_pos hk, if_true]
      refine ⟨trivial, isort_perm _ l, ?_, ?_⟩
      · exact isort_pairwise (fun a b => statLt k b a)
          (fun x y h => statLt_asymm k y x h)
          (fun x y z h1 h2 => statLt_negtrans k z y x h2 h1) l
      · exact isort_filter (fun a b => statLt k b a) (fun s => keyVal k s == v)
          (fun a b ha hb => hp b a hb ha) l
  · intro hk
    simp [sortStatsStep, hk]

/-- A second stat fixture sharing the size of `demoStat`, to exercise
stability. -/
def demoStat2 : Stat :=
  ⟨"/user/alice/b.log", "b.log", 10, 420, 7, 8, "alice", "alice", "file"⟩

/-- A third stat fixture with a larger size. -/
def demoStat3 : Stat :=
  ⟨"/user/alice/c.bin", "c.bin", 20, 420, 9, 9, "alice", "alice", "file"⟩

/-- The unsorted demo listing for the sorting witness. -/
def sortDemo : List Stat := [demoStat3, demoStat, demoStat2]

theorem listdir_sort_spec_witness :
    ("size" ∈ acceptedSortKeys ∧
      ((sortStatsStep (some "size") false sortDemo).2 = [] ∧
       ((sortStatsStep (some "size") false sortDemo).1).Perm sortDemo ∧
       ((sortStatsStep (some "size") false sortDemo).1).Pairwise
         (fun x y => (if false then statLt "size" x y else statLt "size" y x) = false) ∧
       ((sortStatsStep (some "size") false sortDemo).1).filter
         (fun s => keyVal "size" s == SortVal.int 10) =
         sortDemo.filter (fun s => keyVal "size" s == SortVal.int 10))) ∧
    ("zzz" ∉ acceptedSortKeys ∧
      sortStatsStep (some "zzz") false sortDemo = (sortDemo, [invalidSortLog "zzz"])) :=
  ⟨⟨by decide, (listdir_sort_spec "size" false sortDemo (SortVal.int 10)).1 (by decide)⟩,
   ⟨by decide, (listdir_sort_spec "zzz" false sortDemo (SortVal.int 10)).2 (by decide)⟩⟩

theorem staging_path_ne (path : String) : path ≠ path ++ "._hue_new" := by
  intro hh
  have hlen := congrArg String.length hh
  rw [String.length_append] at hlen
  have : String.length "._hue_new" = 9 := by decide
  omega

/-- C2: when the staging write of an overwrite save fails, the pipeline
re-raises the original error and the original file content is unchanged;
the staging path is best-effort deleted (gone whenever the delete
succeeds), and a failing delete is ignored: the original error is
re-raised either way. -/
theorem overwrite_save_write_failure (o : SaveOracle) (fs : FsMap) (path data : String)
    (orig : FileRec) (e : String)
    (horig : fs path = some orig) (hfail : o.writeFail = some e) :
    (_do_overwrite_save o fs path data).1 = .error e ∧
    (_do_overwrite_save o fs path data).2 path = some orig ∧
    (o.removeStagingFail = false →
      (_do_overwrite_save o fs path data).2 (path ++ "._hue_new") = none) := by
  have hne : path ≠ path ++ "._hue_new" := staging_path_ne path
  cases hrf : o.removeStagingFail
  · refine ⟨by simp [_do_overwrite_save, hfail, hrf], ?_, fun _ => ?_⟩
    · simp [_do_overwrite_save, hfail, hrf, fsErase, fsSet, hne, horig]
    · simp [_do_overwrite_save, hfail, hrf, fsErase]
  · refine ⟨by simp [_do_overwrite_save, hfail, hrf], ?_, fun hc => by cases hc⟩
    · simp [_do_overwrite_save, hfail, hrf, fsSet, hne, horig]

/-- An original file fixture for the save witnesses. -/
def origFile : FileRec := ⟨"old text", 420, "alice", "users"⟩

/-- A one-file filesystem fixture holding the original file. -/
def demoFs : FsMap := fun q => if q = "/user/alice/f.txt" then some origFile else none

/-- An oracle whose staging write fails while the cleanup delete works. -/
def failingWriteOracle : SaveOracle :=
  ⟨some "disk full", false, false, false, none, none, 420, "hue", "hue"⟩

theorem overwrite_save_write_failure_witness :
    (demoFs "/user/alice/f.txt" = some origFile ∧
      failingWriteOracle.writeFail = some "disk full") ∧
    ((_do_overwrite_save failingWriteOracle demoFs "/user/alice/f.txt" "new").1 =
        .error "disk full" ∧
      (_do_overwrite_save failingWriteOracle demoFs "/user/alice/f.txt" "new").2
        "/user/alice/f.txt" = some origFile ∧
      (failingWriteOracle.removeStagingFail = false →
        (_do_overwrite_save failingWriteOracle demoFs "/user/alice/f.txt" "new").2
          ("/user/alice/f.txt" ++ "._hue_new") = none)) :=
  ⟨⟨rfl, rfl⟩,
    overwrite_save_write_failure failingWriteOracle demoFs "/user/alice/f.txt" "new"
      origFile "disk full" rfl rfl⟩

/-- C9: a valid POST whose bound operation succeeds and whose piggyback
stat re-fetch fails still renders a page reporting success, with the
result_error flag set instead of a refreshed record, and never raises a
popup. -/
theorem generic_op_piggyback_failure (env : MassageEnv) (ctx : OpCtx) (p : String) (e : String)
    (h1 : ctx.methodPost = true) (h2 : ctx.formValid = true)
    (h3 : ctx.opResult = .ok ()) (h4 : ctx.next = none)
    (h5 : ctx.piggyback = some p) (h6 : ctx.stats p = .error e) :
    generic_op env ctx = .page ⟨true, none, true⟩ ∧
    (∀ msg, generic_op env ctx ≠ .popup msg) := by
  have hres : generic_op env ctx = .page ⟨true, none, true⟩ := by
    simp [generic_op, h1, h2, h3, h4, h5, h6]
  exact ⟨hres, fun msg hmsg => by rw [hres] at hmsg; cases hmsg⟩

/-- A trivial massage environment fixture. -/
def demoEnv : MassageEnv := ⟨fun s => s, fun _ => "file", fun _ => "rw", fun s => s⟩

/-- A request context fixture: valid POST, successful operation, no next
target, and a piggyback path whose stat re-fetch fails. -/
def demoOpCtx : OpCtx :=
  ⟨true, true, .ok (), none, some "/user/alice/f.txt", fun _ => .error "stale handle"⟩

theorem generic_op_piggyback_failure_witness :
    (demoOpCtx.methodPost = true ∧ demoOpCtx.formValid = true ∧
      demoOpCtx.opResult = .ok () ∧ demoOpCtx.next = none ∧
      demoOpCtx.piggyback = some "/user/alice/f.txt" ∧
      demoOpCtx.stats "/user/alice/f.txt" = .error "stale handle") ∧
    (generic_op demoEnv demoOpCtx = .page ⟨true, none, true⟩ ∧
      (∀ msg, generic_op demoEnv demoOpCtx ≠ .popup msg)) :=
  ⟨⟨rfl, rfl, rfl, rfl, rfl, rfl⟩,
    generic_op_piggyback_failure demoEnv demoOpCtx "/user/alice/f.txt" "stale handle"
      rfl rfl rfl rfl rfl rfl⟩

/-- C1: for a job id, the gate fetches the job through get_job when the id
ends in "W" and through get_coordinator otherwise; when the fetch
succeeds, a superuser or the recorded owner gets the job back with no
audit record, and any other requester gets exactly one warning-level
access-denied audit record and a popup permission error carrying the same
message instead of the job. -/
theorem check_access_spec (ctx : OozieCtx) (jid : String) (job : OozieJob)
    (hfetch : (if pyEndsWith jid "W" then ctx.getJob else ctx.getCoordinator) jid = .ok job) :
    (ctx.isSuperuser = true ∨ job.user = ctx.username →
      check_access_and_get_oozie_job ctx (some jid) = (.ok job, [])) ∧
    (ctx.isSuperuser = false → job.user ≠ ctx.username →
      check_access_and_get_oozie_job ctx (some jid) =
        (.error (.popup (permissionDeniedMessage ctx.username job.id)),
          [permissionDeniedMessage ctx.username job.id])) := by
  constructor
  · intro h
    rcases h with hsu | howner
    · simp [check_access_and_get_oozie_job, hfetch, hsu]
    · simp [check_access_and_get_oozie_job, hfetch, howner]
  · intro hsu howner
    simp [check_access_and_get_oozie_job, hfetch, hsu, howner]

/-- The workflow job fixture owned by alice. -/
def demoJob : OozieJob := ⟨"0001-W", "alice"⟩

/-- A REST client context for the owner alice (not a superuser). -/
def ownerCtx : OozieCtx :=
  ⟨"alice", false, fun s => if s = "0001-W" then .ok demoJob else .error "no such job",
    fun _ => .error "not a coordinator"⟩

/-- A REST client context for the stranger mallory (not a superuser). -/
def strangerCtx : OozieCtx :=
  ⟨"mallory", false, fun s => if s = "0001-W" then .ok demoJob else .error "no such job",
    fun _ => .error "not a coordinator"⟩

theorem check_access_spec_witness :
    ((if pyEndsWith "0001-W" "W" then ownerCtx.getJob else ownerCtx.getCoordinator)
        "0001-W" = .ok demoJob ∧
      check_access_and_get_oozie_job ownerCtx (some "0001-W") = (.ok demoJob, [])) ∧
    (strangerCtx.isSuperuser = false ∧ demoJob.user ≠ strangerCtx.username ∧
      check_access_and_get_oozie_job strangerCtx (some "0001-W") =
        (.error (.popup (permissionDeniedMessage strangerCtx.username demoJob.id)),
          [permissionDeniedMessage strangerCtx.username demoJob.id])) :=
  ⟨⟨rfl, (check_access_spec ownerCtx "0001-W" demoJob rfl).1 (Or.inr rfl)⟩,
   ⟨rfl, by decide,
      (check_access_spec strangerCtx "0001-W" demoJob rfl).2 rfl (by decide)⟩⟩

/-- C10: with job id None the gate skips the fetch branch and the
authorization step reads the never-bound local variable: the call neither
returns a job nor raises the documented popup permission or fetch errors,
ending in a NameError with no audit record emitted. -/
theorem check_access_none_spec (ctx : OozieCtx) :
    (∀ job, (check_access_and_get_oozie_job ctx none).1 ≠ .ok job) ∧
    (∀ msg, (check_access_and_get_oozie_job ctx none).1 ≠ .error (.popup msg)) ∧
    (check_access_and_get_oozie_job ctx none).1 = .error (.nameError "oozie_job") ∧
    (check_access_and_get_oozie_job ctx none).2 = [] := by
  refine ⟨?_, ?_, rfl, rfl⟩
  · intro job h
    cases h
  · intro msg h
    cases h
